import Mathlib

/-!
Shallow embedding of the logtracer trace-graph engine.

The Python sources embedded here are:
  - src/logtracer/graph.py        (Node, Edge, TraceGraph and their methods)
  - src/logtracer/serializers.py  (trace_to_json / trace_from_json)
  - src/logtracer/context.py      (current-trace / current-node slots)
  - src/nodetracer/instrumentation/base.py and requests_.py
    (HTTP span helpers and the patched request wrapper)

Conventions of the embedding:
  - Python dict[str, V] becomes an insertion-ordered association list
    List (String × V); assignment keeps the position of an existing key and
    appends a fresh key at the end, matching CPython dict semantics.
  - datetime instants become integer microsecond timestamps; the derived
    duration_ms becomes an exact rational (microseconds / 1000), avoiding
    floating point while keeping the formula (end - start) * 1000 ms.
  - JSON documents are modelled as trees (type Json below); the textual
    printing / parsing layer belongs to the json and pydantic libraries,
    not to this repository, and is not modelled.
  - a raising Python method becomes a function into Except String; raising
    means no new state is produced, so the caller keeps the old graph.
-/

namespace LogTracer

/-- JSON-representable values, used for the open key-value maps
(input_data, output_data, metadata) and for the serialized form of a trace.
Numbers that may be fractional are exact rationals. -/
inductive Json where
  | null : Json
  | bool (b : Bool) : Json
  | int (n : Int) : Json
  | num (q : Rat) : Json
  | str (s : String) : Json
  | arr (items : List Json) : Json
  | obj (fields : List (String × Json)) : Json

/-- Lifecycle state for a node (class NodeStatus, graph.py). -/
inductive NodeStatus where
  | pending | running | completed | failed | cancelled
deriving DecidableEq

/-- Relationship semantics between nodes (class EdgeType, graph.py). -/
inductive EdgeType where
  | caused_by | data_flow | branched_from | retry_of | fallback_of
deriving DecidableEq

def NodeStatus.toStr : NodeStatus → String
  | .pending => "pending"
  | .running => "running"
  | .completed => "completed"
  | .failed => "failed"
  | .cancelled => "cancelled"

def EdgeType.toStr : EdgeType → String
  | .caused_by => "caused_by"
  | .data_flow => "data_flow"
  | .branched_from => "branched_from"
  | .retry_of => "retry_of"
  | .fallback_of => "fallback_of"

/-- Single unit of execution in a trace (class Node, graph.py). -/
structure Node where
  id : String
  sequence_number : Int
  name : String
  node_type : String
  status : NodeStatus
  parent_id : Option String
  depth : Int
  start_time : Option Int
  end_time : Option Int
  input_data : List (String × Json)
  output_data : List (String × Json)
  annotations : List String
  metadata : List (String × Json)
  error : Option String
  error_type : Option String
  error_traceback : Option String

/-- Computed field duration_ms of Node: milliseconds between the two
timestamps when both are set (microseconds divided by 1000). -/
def Node.duration_ms (n : Node) : Option Rat :=
  match n.start_time, n.end_time with
  | some s, some e => some (((e - s : Int) : Rat) / 1000)
  | _, _ => none

/-- Directional relationship between two nodes (class Edge, graph.py). -/
structure Edge where
  source_id : String
  target_id : String
  edge_type : EdgeType
  label : String
  metadata : List (String × Json)

/-- Root trace structure (class TraceGraph, graph.py). The private attribute
_sequence_counter is part of the in-memory object but not of the schema. -/
structure TraceGraph where
  schema_version : String
  trace_id : String
  name : String
  nodes : List (String × Node)
  edges : List Edge
  start_time : Option Int
  end_time : Option Int
  metadata : List (String × Json)
  _sequence_counter : Int

/-- Computed field duration_ms of TraceGraph. -/
def TraceGraph.duration_ms (g : TraceGraph) : Option Rat :=
  match g.start_time, g.end_time with
  | some s, some e => some (((e - s : Int) : Rat) / 1000)
  | _, _ => none

section Dict

variable {α : Type}

/-- Lookup in an insertion-ordered dict. -/
def dictGet (m : List (String × α)) (k : String) : Option α :=
  match m with
  | [] => none
  | (k2, v) :: rest => if k2 = k then some v else dictGet rest k

/-- Membership test, the Python `k in d`. -/
def dictContains (m : List (String × α)) (k : String) : Bool :=
  match m with
  | [] => false
  | (k2, _) :: rest => if k2 = k then true else dictContains rest k

/-- Assignment `d[k] = v`: overwrite in place when the key exists, append
otherwise. -/
def dictSet (m : List (String × α)) (k : String) (v : α) : List (String × α) :=
  match m with
  | [] => [(k, v)]
  | (k2, v2) :: rest =>
      if k2 = k then (k, v) :: rest else (k2, v2) :: dictSet rest k v

end Dict

/-- A fresh TraceGraph with the pydantic field defaults of graph.py
(trace_id comes from uuid4, passed explicitly here). -/
def TraceGraph.new (tid : String) : TraceGraph :=
  { schema_version := "0.1.0", trace_id := tid, name := "",
    nodes := [], edges := [], start_time := none, end_time := none,
    metadata := [], _sequence_counter := 0 }

/-- TraceGraph.next_sequence_number: return the counter, then increment it. -/
def TraceGraph.next_sequence_number (g : TraceGraph) : Int × TraceGraph :=
  (g._sequence_counter, { g with _sequence_counter := g._sequence_counter + 1 })

/-- TraceGraph.add_node: insert a node by id, unconditionally. -/
def TraceGraph.add_node (g : TraceGraph) (n : Node) : TraceGraph :=
  { g with nodes := dictSet g.nodes n.id n }

/-- TraceGraph.add_edge: validate that both endpoints exist, then append. -/
def TraceGraph.add_edge (g : TraceGraph) (e : Edge) : Except String TraceGraph :=
  if dictContains g.nodes e.source_id = false then
    Except.error ("Unknown edge source node id: " ++ e.source_id)
  else if dictContains g.nodes e.target_id = false then
    Except.error ("Unknown edge target node id: " ++ e.target_id)
  else
    Except.ok { g with edges := g.edges ++ [e] }

/-- The loop body of TraceGraph.validate_edge_references: scan the edges in
order, failing on the first edge with a missing endpoint (source checked
before target). -/
def checkEdges (nodes : List (String × Node)) : List Edge → Except String Unit
  | [] => Except.ok ()
  | e :: rest =>
      if dictContains nodes e.source_id = false then
        Except.error ("Edge source_id not found in nodes: " ++ e.source_id)
      else if dictContains nodes e.target_id = false then
        Except.error ("Edge target_id not found in nodes: " ++ e.target_id)
      else checkEdges nodes rest

/-- TraceGraph.validate_edge_references, the model validator run by pydantic
whenever a TraceGraph is constructed or deserialized. -/
def TraceGraph.validate_edge_references (g : TraceGraph) : Except String TraceGraph :=
  match checkEdges g.nodes g.edges with
  | Except.ok () => Except.ok g
  | Except.error m => Except.error m

/-- n successive calls of next_sequence_number, collecting the returned
values in call order. -/
def allocN (g : TraceGraph) : Nat → List Int × TraceGraph
  | 0 => ([], g)
  | n + 1 =>
      let (v, g1) := g.next_sequence_number
      let (vs, g2) := allocN g1 n
      (v :: vs, g2)

/-! ## Serialization (serializers.py over the pydantic codec)

trace_to_json is model_dump_json: every schema field is emitted, computed
fields (duration_ms) included, the private counter excluded.
trace_from_json is model_validate_json: every schema field is read back by
name, unknown input keys (such as the dumped duration_ms) are ignored, the
private counter is reset to its default 0, and the model validator
(validate_edge_references) is re-run on the result. -/

def encOptInt : Option Int → Json
  | none => Json.null
  | some n => Json.int n

def decOptInt : Json → Except String (Option Int)
  | Json.null => Except.ok none
  | Json.int n => Except.ok (some n)
  | _ => Except.error "expected integer or null"

def encOptStr : Option String → Json
  | none => Json.null
  | some s => Json.str s

def decOptStr : Json → Except String (Option String)
  | Json.null => Except.ok none
  | Json.str s => Except.ok (some s)
  | _ => Except.error "expected string or null"

def encOptRat : Option Rat → Json
  | none => Json.null
  | some q => Json.num q

def asStr : Json → Except String String
  | Json.str s => Except.ok s
  | _ => Except.error "expected string"

def asInt : Json → Except String Int
  | Json.int n => Except.ok n
  | _ => Except.error "expected integer"

def asObj : Json → Except String (List (String × Json))
  | Json.obj fields => Except.ok fields
  | _ => Except.error "expected object"

def asArr : Json → Except String (List Json)
  | Json.arr items => Except.ok items
  | _ => Except.error "expected array"

/-- Fetch a required field by name from a decoded object. -/
def getF (fields : List (String × Json)) (k : String) : Except String Json :=
  match fields with
  | [] => Except.error ("missing field: " ++ k)
  | (k2, v) :: rest => if k2 = k then Except.ok v else getF rest k

def statusOfStr (s : String) : Except String NodeStatus :=
  if s = "pending" then Except.ok NodeStatus.pending
  else if s = "running" then Except.ok NodeStatus.running
  else if s = "completed" then Except.ok NodeStatus.completed
  else if s = "failed" then Except.ok NodeStatus.failed
  else if s = "cancelled" then Except.ok NodeStatus.cancelled
  else Except.error ("invalid node status: " ++ s)

def edgeTypeOfStr (s : String) : Except String EdgeType :=
  if s = "caused_by" then Except.ok EdgeType.caused_by
  else if s = "data_flow" then Except.ok EdgeType.data_flow
  else if s = "branched_from" then Except.ok EdgeType.branched_from
  else if s = "retry_of" then Except.ok EdgeType.retry_of
  else if s = "fallback_of" then Except.ok EdgeType.fallback_of
  else Except.error ("invalid edge type: " ++ s)

def decStrList : List Json → Except String (List String)
  | [] => Except.ok []
  | j :: rest => do
      let s ← asStr j
      let ss ← decStrList rest
      Except.ok (s :: ss)

/-- The serialized fields of a Node: all schema fields plus the computed
duration_ms, in declaration order (pydantic model_dump). -/
def nodeFields (n : Node) : List (String × Json) :=
  [("id", Json.str n.id),
   ("sequence_number", Json.int n.sequence_number),
   ("name", Json.str n.name),
   ("node_type", Json.str n.node_type),
   ("status", Json.str n.status.toStr),
   ("parent_id", encOptStr n.parent_id),
   ("depth", Json.int n.depth),
   ("start_time", encOptInt n.start_time),
   ("end_time", encOptInt n.end_time),
   ("input_data", Json.obj n.input_data),
   ("output_data", Json.obj n.output_data),
   ("annotations", Json.arr (n.annotations.map Json.str)),
   ("metadata", Json.obj n.metadata),
   ("error", encOptStr n.error),
   ("error_type", encOptStr n.error_type),
   ("error_traceback", encOptStr n.error_traceback),
   ("duration_ms", encOptRat n.duration_ms)]

/-- Serialized form of a Node (pydantic model_dump). -/
def encodeNode (n : Node) : Json := Json.obj (nodeFields n)

/-- Field-by-name validation of a Node (pydantic model_validate); the
computed field duration_ms is not accepted as input, it is recomputed. -/
def decodeNode (j : Json) : Except String Node := do
  let fields ← asObj j
  let id ← asStr (← getF fields "id")
  let seq ← asInt (← getF fields "sequence_number")
  let name ← asStr (← getF fields "name")
  let ntype ← asStr (← getF fields "node_type")
  let status ← statusOfStr (← asStr (← getF fields "status"))
  let pid ← decOptStr (← getF fields "parent_id")
  let depth ← asInt (← getF fields "depth")
  let st ← decOptInt (← getF fields "start_time")
  let et ← decOptInt (← getF fields "end_time")
  let inp ← asObj (← getF fields "input_data")
  let out ← asObj (← getF fields "output_data")
  let ann ← decStrList (← asArr (← getF fields "annotations"))
  let meta ← asObj (← getF fields "metadata")
  let err ← decOptStr (← getF fields "error")
  let errTy ← decOptStr (← getF fields "error_type")
  let errTb ← decOptStr (← getF fields "error_traceback")
  Except.ok {
    id := id, sequence_number := seq, name := name, node_type := ntype,
    status := status, parent_id := pid, depth := depth,
    start_time := st, end_time := et, input_data := inp, output_data := out,
    annotations := ann, metadata := meta,
    error := err, error_type := errTy, error_traceback := errTb }

/-- The serialized fields of an Edge, in declaration order. -/
def edgeFields (e : Edge) : List (String × Json) :=
  [("source_id", Json.str e.source_id),
   ("target_id", Json.str e.target_id),
   ("edge_type", Json.str e.edge_type.toStr),
   ("label", Json.str e.label),
   ("metadata", Json.obj e.metadata)]

def encodeEdge (e : Edge) : Json := Json.obj (edgeFields e)

def decodeEdge (j : Json) : Except String Edge := do
  let fields ← asObj j
  let src ← asStr (← getF fields "source_id")
  let tgt ← asStr (← getF fields "target_id")
  let ety ← edgeTypeOfStr (← asStr (← getF fields "edge_type"))
  let label ← asStr (← getF fields "label")
  let meta ← asObj (← getF fields "metadata")
  Except.ok { source_id := src, target_id := tgt, edge_type := ety,
              label := label, metadata := meta }

def decodeNodesDict : List (String × Json) → Except String (List (String × Node))
  | [] => Except.ok []
  | (k, v) :: rest => do
      let n ← decodeNode v
      let ns ← decodeNodesDict rest
      Except.ok ((k, n) :: ns)

def decodeEdgeList : List Json → Except String (List Edge)
  | [] => Except.ok []
  | j :: rest => do
      let e ← decodeEdge j
      let es ← decodeEdgeList rest
      Except.ok (e :: es)

/-- The serialized fields of a TraceGraph, in declaration order. The
private _sequence_counter is not serialized. -/
def traceFields (g : TraceGraph) : List (String × Json) :=
  [("schema_version", Json.str g.schema_version),
   ("trace_id", Json.str g.trace_id),
   ("name", Json.str g.name),
   ("nodes", Json.obj (g.nodes.map (fun kv => (kv.1, encodeNode kv.2)))),
   ("edges", Json.arr (g.edges.map encodeEdge)),
   ("start_time", encOptInt g.start_time),
   ("end_time", encOptInt g.end_time),
   ("metadata", Json.obj g.metadata),
   ("duration_ms", encOptRat g.duration_ms)]

/-- trace_to_json (serializers.py): model_dump_json of a TraceGraph. -/
def trace_to_json (g : TraceGraph) : Json := Json.obj (traceFields g)

/-- Field validation half of trace_from_json: reads every schema field back
and resets the private counter to its default 0. -/
def decodeTraceRaw (j : Json) : Except String TraceGraph := do
  let fields ← asObj j
  let sv ← asStr (← getF fields "schema_version")
  let tid ← asStr (← getF fields "trace_id")
  let name ← asStr (← getF fields "name")
  let nodes ← decodeNodesDict (← asObj (← getF fields "nodes"))
  let edges ← decodeEdgeList (← asArr (← getF fields "edges"))
  let st ← decOptInt (← getF fields "start_time")
  let et ← decOptInt (← getF fields "end_time")
  let meta ← asObj (← getF fields "metadata")
  Except.ok {
    schema_version := sv, trace_id := tid, name := name,
    nodes := nodes, edges := edges, start_time := st, end_time := et,
    metadata := meta, _sequence_counter := 0 }

/-- trace_from_json (serializers.py): model_validate_json of a TraceGraph,
which re-runs the model validator validate_edge_references. -/
def trace_from_json (j : Json) : Except String TraceGraph := do
  let g ← decodeTraceRaw j
  g.validate_edge_references

/-! ## Context propagation (context.py)

The two contextvar slots _current_trace and _current_node, both defaulting
to None. A contextvars Token captures the prior value of its slot, and
reset restores exactly that prior value. -/

structure Ctx where
  current_trace : Option TraceGraph
  current_node : Option Node

/-- Restore token for the trace slot. -/
structure TraceToken where
  old : Option TraceGraph

/-- Restore token for the node slot. -/
structure NodeToken where
  old : Option Node

def get_current_trace (c : Ctx) : Option TraceGraph := c.current_trace

def get_current_node (c : Ctx) : Option Node := c.current_node

def push_current_trace (c : Ctx) (t : TraceGraph) : TraceToken × Ctx :=
  ({ old := c.current_trace }, { c with current_trace := some t })

def push_current_node (c : Ctx) (n : Option Node) : NodeToken × Ctx :=
  ({ old := c.current_node }, { c with current_node := n })

def reset_current_trace (c : Ctx) (tok : TraceToken) : Ctx :=
  { c with current_trace := tok.old }

def reset_current_node (c : Ctx) (tok : NodeToken) : Ctx :=
  { c with current_node := tok.old }

def clear_context (_ : Ctx) : Ctx :=
  { current_trace := none, current_node := none }

/-! ## Interleaved execution of next_sequence_number (graph.py lines 123-127)

One call of next_sequence_number is three machine-level accesses to the
shared counter, none of them guarded by a lock in graph.py:
  pc 0: value = self._sequence_counter          (read)
  pc 1: read self._sequence_counter for += 1    (read)
  pc 2: store the incremented counter; return value
Two execution units sharing one TraceGraph run these under an arbitrary
interleaving, chosen by a schedule. -/

structure AllocThread where
  pc : Nat
  value : Int
  tmp : Int
  ret : Option Int

def AllocThread.init : AllocThread := { pc := 0, value := 0, tmp := 0, ret := none }

def allocStep (g : TraceGraph) (t : AllocThread) : TraceGraph × AllocThread :=
  if t.pc = 0 then
    (g, { t with pc := 1, value := g._sequence_counter })
  else if t.pc = 1 then
    (g, { t with pc := 2, tmp := g._sequence_counter })
  else if t.pc = 2 then
    ({ g with _sequence_counter := t.tmp + 1 }, { t with pc := 3, ret := some t.value })
  else (g, t)

structure AllocWorld where
  graph : TraceGraph
  t1 : AllocThread
  t2 : AllocThread

/-- Run a schedule: false advances thread 1, true advances thread 2. -/
def runSched (w : AllocWorld) : List Bool → AllocWorld
  | [] => w
  | b :: rest =>
      if b then
        let (g, t) := allocStep w.graph w.t2
        runSched { w with graph := g, t2 := t } rest
      else
        let (g, t) := allocStep w.graph w.t1
        runSched { w with graph := g, t1 := t } rest

def allocWorld0 (tid : String) : AllocWorld :=
  { graph := TraceGraph.new tid, t1 := AllocThread.init, t2 := AllocThread.init }

/-! ## Span-driven graph construction

Modelled from the spec: the Span class (logtracer/core/span.py) is not in
src; spec section 4.3 fixes its construction: a Span allocates a sequence
number via next_sequence_number, computes parent_id and depth from the
current-node context (depth 0 and no parent when no node is current, else
parent.depth + 1), inserts a pending Node via add_node, and on enter pushes
its node as the new current node; on exit it finalizes status and end_time
and restores the prior current node. The current-node context of one
logical flow is the stack below. -/

structure RunState where
  graph : TraceGraph
  stack : List Node

/-- Modelled from the spec: Span construction plus enter (spec 4.3). The
fresh node id comes from uuid4, passed explicitly. -/
def spanOpen (st : RunState) (id name node_type : String) : RunState :=
  let p := st.graph.next_sequence_number
  let parent := st.stack.head?
  let node : Node :=
    { id := id, sequence_number := p.1, name := name, node_type := node_type,
      status := NodeStatus.pending,
      parent_id := parent.map Node.id,
      depth := match parent with
               | none => 0
               | some pn => pn.depth + 1,
      start_time := none, end_time := none,
      input_data := [], output_data := [], annotations := [], metadata := [],
      error := none, error_type := none, error_traceback := none }
  { graph := p.2.add_node node, stack := node :: st.stack }

/-- Modelled from the spec: Span exit (spec 4.3): stamp end_time, finalize
the status, restore the prior current node. Mutating the node in place is
re-inserting it under its unchanged id. -/
def spanClose (st : RunState) (endTime : Int) (final : NodeStatus) : RunState :=
  match st.stack with
  | [] => st
  | n :: rest =>
      let n2 := { n with status := final, end_time := some endTime }
      { graph := st.graph.add_node n2, stack := rest }

/-- States reachable by the system operations: start a fresh trace, open a
Span (with a uuid4 id, hence unused), close the innermost Span. -/
inductive Reach : RunState → Prop where
  | start_trace (tid : String) :
      Reach { graph := TraceGraph.new tid, stack := [] }
  | open_span (st : RunState) (h : Reach st) (id name node_type : String)
      (fresh : dictContains st.graph.nodes id = false) :
      Reach (spanOpen st id name node_type)
  | close_span (st : RunState) (h : Reach st) (endTime : Int) (final : NodeStatus) :
      Reach (spanClose st endTime final)

/-- The depth/parent invariant claimed for every node of a graph: depth 0
exactly at roots, otherwise one more than the depth of the parent, which
must itself be present. -/
def DepthInvIff (g : TraceGraph) : Prop :=
  ∀ k n, dictGet g.nodes k = some n →
    (n.depth = 0 ↔ n.parent_id = none) ∧
    (∀ p, n.parent_id = some p →
      ∃ pn, dictGet g.nodes p = some pn ∧ n.depth = pn.depth + 1)

/-! ## HTTP instrumentation (nodetracer/instrumentation/base.py, requests_.py) -/

/-- _span_name (base.py). -/
def _span_name (method url : String) : String := method.toUpper ++ " " ++ url

/-- A user-supplied exclude pattern: either an invalid regular expression
(re.search raises re.error on it) or a valid one with its match test. -/
inductive RePattern where
  | invalid : RePattern
  | valid (test : String → Bool) : RePattern

def RePattern.isValid : RePattern → Bool
  | .invalid => false
  | .valid _ => true

/-- The for loop of _should_skip: try re.search, and on re.error continue
with the next pattern. -/
def skipLoop (url : String) : List RePattern → Bool
  | [] => false
  | RePattern.invalid :: rest => skipLoop url rest
  | RePattern.valid t :: rest => if t url then true else skipLoop url rest

/-- _should_skip (base.py). -/
def _should_skip (url : String) (exclude_urls : Option (List RePattern)) : Bool :=
  match exclude_urls with
  | none => false
  | some pats => skipLoop url pats

/-- _apply_url_filter (base.py): the user filter may raise; then the
original URL is used. -/
def _apply_url_filter (url : String)
    (url_filter : Option (String → Except String String)) : String :=
  match url_filter with
  | none => url
  | some f =>
      match f url with
      | Except.ok u => u
      | Except.error _ => url

/-- Modelled from the spec: the Span class is not in src; for
create_http_span only the constructor arguments and the recorded input
matter (spec section 6, instrumentation boundary). -/
structure SpanData where
  name : String
  node_type : String
  input_data : List (String × Json)

/-- create_http_span (base.py), with the ambient get_current_trace read
passed explicitly. -/
def create_http_span (current : Option TraceGraph) (method url : String)
    (url_filter : Option (String → Except String String))
    (exclude_urls : Option (List RePattern)) : Option SpanData :=
  match current with
  | none => none
  | some _ =>
      let filtered_url := _apply_url_filter url url_filter
      if _should_skip filtered_url exclude_urls then none
      else some {
        name := _span_name method filtered_url,
        node_type := "http_request",
        input_data := [("method", Json.str method.toUpper),
                       ("url", Json.str filtered_url)] }

/-- round(x, 2) of Python, as an exact rational (ties are rounded up here
where Python rounds them to even; no claim depends on tie behaviour). -/
def round2 (q : Rat) : Rat := ((round (q * 100) : Int) : Rat) / 100

/-- Behaviour of the Span recording methods used by record_http_response.
Modelled from the spec: the Span class is not in src. Each method returns
its updated state together with an optional raised exception; keeping them
abstract makes the containment theorems quantify over every behaviour,
raising included. enter and exit are total: spec section 4.3 makes Span
contain its own recording errors. -/
structure SpanOps (σ : Type) where
  set_status : σ → NodeStatus → σ × Option String
  output : σ → List (String × Json) → σ × Option String

/-- The try body of record_http_response (base.py): build the output
payload, mark the span failed when an error string is present, record the
payload. Stops at the first raised exception, keeping mutations so far. -/
def recordBody {σ : Type} (ops : SpanOps σ) (span : σ) (status_code : Option Int)
    (dur : Rat) (error : Option String) : σ × Option String :=
  let out0 := [("duration_ms", Json.num (round2 dur))]
  let out1 := match status_code with
    | some c => out0 ++ [("status_code", Json.int c)]
    | none => out0
  match error with
  | some e =>
      let p := ops.set_status span NodeStatus.failed
      match p.2 with
      | some exc => (p.1, some exc)
      | none => ops.output p.1 (out1 ++ [("error", Json.str e)])
  | none => ops.output span out1

/-- record_http_response (base.py): the try body under a catch-all except
that turns any raised exception into a warning. The Bool records whether
the warning fired; no exception ever escapes (the return type has none). -/
def record_http_response {σ : Type} (ops : SpanOps σ) (span : σ)
    (status_code : Option Int) (dur : Rat) (error : Option String) : σ × Bool :=
  match recordBody ops span status_code dur error with
  | (s2, none) => (s2, false)
  | (s2, some _) => (s2, true)

/-- Outcome of the underlying Session.request call. -/
structure Response where
  status_code : Int

/-- _patched_request (requests_.py) with the underlying request call
abstracted as its outcome orig (a response, possibly None, or a raised
exception) and the wall clock as dur. enter and exitf are the Span
enter/exit of the missing span.py, total per spec section 4.3. -/
def patched_request {σ : Type} (ops : SpanOps σ) (enter exitf : σ → σ)
    (spanOpt : Option σ) (orig : Except String (Option Response)) (dur : Rat) :
    Except String (Option Response) :=
  match spanOpt with
  | none => orig
  | some s =>
      let s1 := enter s
      match orig with
      | Except.ok response =>
          let sc := response.map Response.status_code
          let p := record_http_response ops s1 sc dur none
          let _ := exitf p.1
          Except.ok response
      | Except.error exc =>
          let p := record_http_response ops s1 none dur (some exc)
          let _ := exitf p.1
          Except.error exc

/-! ## Theorems -/

/-- add_edge with a missing source fails with the source message. -/
theorem add_edge_error_src (g : TraceGraph) (e : Edge)
    (h : dictContains g.nodes e.source_id = false) :
    g.add_edge e = Except.error ("Unknown edge source node id: " ++ e.source_id) := by
  simp [TraceGraph.add_edge, h]

/-- add_edge with a present source but missing target fails with the target
message. -/
theorem add_edge_error_tgt (g : TraceGraph) (e : Edge)
    (hs : dictContains g.nodes e.source_id = true)
    (ht : dictContains g.nodes e.target_id = false) :
    g.add_edge e = Except.error ("Unknown edge target node id: " ++ e.target_id) := by
  simp [TraceGraph.add_edge, hs, ht]

/-- add_edge with both endpoints present appends the edge. -/
theorem add_edge_ok (g : TraceGraph) (e : Edge)
    (hs : dictContains g.nodes e.source_id = true)
    (ht : dictContains g.nodes e.target_id = true) :
    g.add_edge e = Except.ok { g with edges := g.edges ++ [e] } := by
  simp [TraceGraph.add_edge, hs, ht]

/-- C1: add_edge fails with a referential-integrity error exactly when one
of the endpoints is absent from the nodes map, and on success appends
exactly that edge at the end of the edges list, all other parts of the
graph untouched. In this embedding a raising method produces no new state,
so the caller keeps the unchanged graph on failure. -/
theorem C1_add_edge_contract (g : TraceGraph) (e : Edge) :
    ((∃ msg, g.add_edge e = Except.error msg) ↔
      (dictContains g.nodes e.source_id = false ∨
       dictContains g.nodes e.target_id = false))
    ∧ (∀ g2, g.add_edge e = Except.ok g2 →
        g2.nodes = g.nodes ∧ g2.edges = g.edges ++ [e] ∧
        g2.schema_version = g.schema_version ∧ g2.trace_id = g.trace_id ∧
        g2.name = g.name ∧ g2.start_time = g.start_time ∧
        g2.end_time = g.end_time ∧ g2.metadata = g.metadata ∧
        g2._sequence_counter = g._sequence_counter) := by
  by_cases hs : dictContains g.nodes e.source_id = false
  · refine ⟨⟨fun _ => Or.inl hs, fun _ => ⟨_, add_edge_error_src g e hs⟩⟩, ?_⟩
    intro g2 hg2
    rw [add_edge_error_src g e hs] at hg2
    exact absurd hg2 (by simp)
  · have hs2 : dictContains g.nodes e.source_id = true := by
      revert hs; cases dictContains g.nodes e.source_id <;> simp
    by_cases ht : dictContains g.nodes e.target_id = false
    · refine ⟨⟨fun _ => Or.inr ht, fun _ => ⟨_, add_edge_error_tgt g e hs2 ht⟩⟩, ?_⟩
      intro g2 hg2
      rw [add_edge_error_tgt g e hs2 ht] at hg2
      exact absurd hg2 (by simp)
    · have ht2 : dictContains g.nodes e.target_id = true := by
        revert ht; cases dictContains g.nodes e.target_id <;> simp
      constructor
      · constructor
        · rintro ⟨msg, hmsg⟩
          rw [add_edge_ok g e hs2 ht2] at hmsg
          exact absurd hmsg (by simp)
        · rintro (h | h)
          · exact absurd h hs
          · exact absurd h ht
      · intro g2 hg2
        rw [add_edge_ok g e hs2 ht2] at hg2
        have : g2 = { g with edges := g.edges ++ [e] } := by
          injection hg2 with h2
          exact h2.symm
        subst this
        exact ⟨rfl, rfl, rfl, rfl, rfl, rfl, rfl, rfl, rfl⟩

/-- A concrete one-node sample graph for the witnesses. -/
def sampleNode : Node :=
  { id := "a", sequence_number := 0, name := "root", node_type := "custom",
    status := NodeStatus.pending, parent_id := none, depth := 0,
    start_time := none, end_time := none, input_data := [],
    output_data := [], annotations := [], metadata := [],
    error := none, error_type := none, error_traceback := none }

def sampleG : TraceGraph := (TraceGraph.new "t").add_node sampleNode

def sampleEdge : Edge :=
  { source_id := "a", target_id := "a", edge_type := EdgeType.caused_by,
    label := "", metadata := [] }

def danglingEdge : Edge :=
  { source_id := "missing", target_id := "a", edge_type := EdgeType.caused_by,
    label := "", metadata := [] }

/-- Witness for C1 at a concrete graph: on the one-node sample graph, the
dangling edge is rejected and the self edge is appended. -/
theorem C1_add_edge_contract_witness :
    (∃ msg, sampleG.add_edge danglingEdge = Except.error msg)
    ∧ ({ sampleG with edges := sampleG.edges ++ [sampleEdge] }).nodes = sampleG.nodes :=
  ⟨(C1_add_edge_contract sampleG danglingEdge).1.mpr (Or.inl rfl),
   ((C1_add_edge_contract sampleG sampleEdge).2
      { sampleG with edges := sampleG.edges ++ [sampleEdge] } rfl).1⟩

/-- The outcome of n successive next_sequence_number calls: an arithmetic
progression of length n starting at the current counter, with the counter
advanced by n. -/
theorem allocN_spec (g : TraceGraph) (n : Nat) :
    (allocN g n).1 = (List.range n).map (fun i : Nat => g._sequence_counter + (i : Int)) ∧
    (allocN g n).2 = { g with _sequence_counter := g._sequence_counter + (n : Int) } := by
  induction n generalizing g with
  | zero => simp [allocN]
  | succ n ih =>
      obtain ⟨ih1, ih2⟩ := ih { g with _sequence_counter := g._sequence_counter + 1 }
      constructor
      · simp only [allocN, TraceGraph.next_sequence_number, ih1,
          List.range_succ_eq_map, List.map_cons, List.map_map, Nat.cast_zero,
          add_zero, List.cons.injEq, true_and]
        apply List.map_congr_left
        intro a _
        simp only [Function.comp_apply]
        push_cast
        ring
      · simp only [allocN, TraceGraph.next_sequence_number, ih2]
        congr 1
        push_cast
        ring

/-- C4: next_sequence_number returns the current counter and then
increments it by one; hence n successive calls on a fresh trace return
exactly 0, 1, ..., n-1, values that are strictly increasing (and so
unique) in call order. -/
theorem C4_next_sequence_number (g : TraceGraph) (tid : String) (n : Nat) :
    g.next_sequence_number
      = (g._sequence_counter, { g with _sequence_counter := g._sequence_counter + 1 })
    ∧ (allocN (TraceGraph.new tid) n).1 = (List.range n).map (fun i : Nat => (i : Int))
    ∧ ((allocN (TraceGraph.new tid) n).1).Pairwise (· < ·) := by
  have h := (allocN_spec (TraceGraph.new tid) n).1
  have h0 : (TraceGraph.new tid)._sequence_counter = 0 := rfl
  rw [h0] at h
  simp only [zero_add] at h
  refine ⟨rfl, h, ?_⟩
  rw [h]
  refine List.Pairwise.map _ ?_ (List.pairwise_lt_range n)
  intro a b hab
  exact_mod_cast hab

/-- Destructing a successful Except bind. -/
theorem exceptBind_ok {α β : Type} {x : Except String α} {f : α → Except String β}
    {b : β} (h : (x >>= f) = Except.ok b) :
    ∃ a, x = Except.ok a ∧ f a = Except.ok b := by
  cases x with
  | error e => simp [Bind.bind, Except.bind] at h
  | ok a => exact ⟨a, rfl, by simpa [Bind.bind, Except.bind] using h⟩

theorem bool_ne_false {b : Bool} (h : ¬ b = false) : b = true := by
  cases b
  · exact absurd rfl h
  · rfl

theorem decOptInt_enc (o : Option Int) : decOptInt (encOptInt o) = Except.ok o := by
  cases o <;> rfl

theorem decOptStr_enc (o : Option String) : decOptStr (encOptStr o) = Except.ok o := by
  cases o <;> rfl

theorem statusOfStr_toStr (s : NodeStatus) : statusOfStr s.toStr = Except.ok s := by
  cases s <;> rfl

theorem edgeTypeOfStr_toStr (t : EdgeType) : edgeTypeOfStr t.toStr = Except.ok t := by
  cases t <;> rfl

theorem decStrList_enc (l : List String) : decStrList (l.map Json.str) = Except.ok l := by
  induction l with
  | nil => rfl
  | cons a rest ih => simp [decStrList, asStr, Bind.bind, Except.bind, ih]

theorem nodeF_id (n : Node) : getF (nodeFields n) "id" = Except.ok (Json.str n.id) := rfl

theorem nodeF_seq (n : Node) :
    getF (nodeFields n) "sequence_number" = Except.ok (Json.int n.sequence_number) := rfl

theorem nodeF_name (n : Node) : getF (nodeFields n) "name" = Except.ok (Json.str n.name) := rfl

theorem nodeF_type (n : Node) :
    getF (nodeFields n) "node_type" = Except.ok (Json.str n.node_type) := rfl

theorem nodeF_status (n : Node) :
    getF (nodeFields n) "status" = Except.ok (Json.str n.status.toStr) := rfl

theorem nodeF_parent (n : Node) :
    getF (nodeFields n) "parent_id" = Except.ok (encOptStr n.parent_id) := rfl

theorem nodeF_depth (n : Node) : getF (nodeFields n) "depth" = Except.ok (Json.int n.depth) := rfl

theorem nodeF_start (n : Node) :
    getF (nodeFields n) "start_time" = Except.ok (encOptInt n.start_time) := rfl

theorem nodeF_end (n : Node) :
    getF (nodeFields n) "end_time" = Except.ok (encOptInt n.end_time) := rfl

theorem nodeF_input (n : Node) :
    getF (nodeFields n) "input_data" = Except.ok (Json.obj n.input_data) := rfl

theorem nodeF_output (n : Node) :
    getF (nodeFields n) "output_data" = Except.ok (Json.obj n.output_data) := rfl

theorem nodeF_ann (n : Node) :
    getF (nodeFields n) "annotations" = Except.ok (Json.arr (n.annotations.map Json.str)) := rfl

theorem nodeF_meta (n : Node) :
    getF (nodeFields n) "metadata" = Except.ok (Json.obj n.metadata) := rfl

theorem nodeF_error (n : Node) :
    getF (nodeFields n) "error" = Except.ok (encOptStr n.error) := rfl

theorem nodeF_error_type (n : Node) :
    getF (nodeFields n) "error_type" = Except.ok (encOptStr n.error_type) := rfl

theorem nodeF_error_tb (n : Node) :
    getF (nodeFields n) "error_traceback" = Except.ok (encOptStr n.error_traceback) := rfl

/-- Decoding an encoded Node restores every schema field and recomputes the
derived duration. -/
theorem decodeNode_enc (n : Node) : decodeNode (encodeNode n) = Except.ok n := by
  simp only [decodeNode, encodeNode, asObj, Bind.bind, Except.bind,
    nodeF_id, nodeF_seq, nodeF_name, nodeF_type, nodeF_status, nodeF_parent,
    nodeF_depth, nodeF_start, nodeF_end, nodeF_input, nodeF_output, nodeF_ann,
    nodeF_meta, nodeF_error, nodeF_error_type, nodeF_error_tb,
    asStr, asInt, asArr, decOptInt_enc, decOptStr_enc, statusOfStr_toStr,
    decStrList_enc]

theorem edgeF_src (e : Edge) :
    getF (edgeFields e) "source_id" = Except.ok (Json.str e.source_id) := rfl

theorem edgeF_tgt (e : Edge) :
    getF (edgeFields e) "target_id" = Except.ok (Json.str e.target_id) := rfl

theorem edgeF_type (e : Edge) :
    getF (edgeFields e) "edge_type" = Except.ok (Json.str e.edge_type.toStr) := rfl

theorem edgeF_label (e : Edge) :
    getF (edgeFields e) "label" = Except.ok (Json.str e.label) := rfl

theorem edgeF_meta (e : Edge) :
    getF (edgeFields e) "metadata" = Except.ok (Json.obj e.metadata) := rfl

theorem decodeEdge_enc (e : Edge) : decodeEdge (encodeEdge e) = Except.ok e := by
  simp only [decodeEdge, encodeEdge, asObj, Bind.bind, Except.bind,
    edgeF_src, edgeF_tgt, edgeF_type, edgeF_label, edgeF_meta,
    asStr, edgeTypeOfStr_toStr]

theorem decodeNodesDict_enc (m : List (String × Node)) :
    decodeNodesDict (m.map (fun kv => (kv.1, encodeNode kv.2))) = Except.ok m := by
  induction m with
  | nil => rfl
  | cons kv rest ih =>
      simp [decodeNodesDict, decodeNode_enc, Bind.bind, Except.bind, ih]

theorem decodeEdgeList_enc (l : List Edge) :
    decodeEdgeList (l.map encodeEdge) = Except.ok l := by
  induction l with
  | nil => rfl
  | cons e rest ih =>
      simp [decodeEdgeList, decodeEdge_enc, Bind.bind, Except.bind, ih]

theorem traceF_sv (g : TraceGraph) :
    getF (traceFields g) "schema_version" = Except.ok (Json.str g.schema_version) := rfl

theorem traceF_tid (g : TraceGraph) :
    getF (traceFields g) "trace_id" = Except.ok (Json.str g.trace_id) := rfl

theorem traceF_name (g : TraceGraph) :
    getF (traceFields g) "name" = Except.ok (Json.str g.name) := rfl

theorem traceF_nodes (g : TraceGraph) :
    getF (traceFields g) "nodes"
      = Except.ok (Json.obj (g.nodes.map (fun kv => (kv.1, encodeNode kv.2)))) := rfl

theorem traceF_edges (g : TraceGraph) :
    getF (traceFields g) "edges" = Except.ok (Json.arr (g.edges.map encodeEdge)) := rfl

theorem traceF_start (g : TraceGraph) :
    getF (traceFields g) "start_time" = Except.ok (encOptInt g.start_time) := rfl

theorem traceF_end (g : TraceGraph) :
    getF (traceFields g) "end_time" = Except.ok (encOptInt g.end_time) := rfl

theorem traceF_meta (g : TraceGraph) :
    getF (traceFields g) "metadata" = Except.ok (Json.obj g.metadata) := rfl

/-- The field-validation half of decoding inverts encoding exactly, except
that the private counter is freshly defaulted to 0. -/
theorem decodeTraceRaw_enc (g : TraceGraph) :
    decodeTraceRaw (trace_to_json g) = Except.ok { g with _sequence_counter := 0 } := by
  simp only [decodeTraceRaw, trace_to_json, asObj, Bind.bind, Except.bind,
    traceF_sv, traceF_tid, traceF_name, traceF_nodes, traceF_edges,
    traceF_start, traceF_end, traceF_meta,
    asStr, asArr, decOptInt_enc, decodeNodesDict_enc, decodeEdgeList_enc]

/-- Every edge accepted by the validation loop has both endpoints present. -/
theorem checkEdges_ok_sound (ns : List (String × Node)) :
    ∀ es, checkEdges ns es = Except.ok () →
      ∀ e ∈ es, dictContains ns e.source_id = true ∧ dictContains ns e.target_id = true := by
  intro es
  induction es with
  | nil =>
      intro _ e he
      cases he
  | cons e rest ih =>
      intro h e2 he2
      by_cases hs : dictContains ns e.source_id = false
      · simp [checkEdges, hs] at h
      · by_cases ht : dictContains ns e.target_id = false
        · simp [checkEdges, hs, ht] at h
        · have hrest : checkEdges ns rest = Except.ok () := by
            simpa [checkEdges, hs, ht] using h
          rcases List.mem_cons.mp he2 with he2 | he2
          · subst he2
            exact ⟨bool_ne_false hs, bool_ne_false ht⟩
          · exact ih hrest e2 he2

/-- When some edge has a missing endpoint, the validation loop fails with a
message naming the missing id of the first offending edge. -/
theorem checkEdges_error_complete (ns : List (String × Node)) :
    ∀ es, (∃ e ∈ es, dictContains ns e.source_id = false ∨
                     dictContains ns e.target_id = false) →
      ∃ msg e, checkEdges ns es = Except.error msg ∧ e ∈ es ∧
        ((dictContains ns e.source_id = false ∧
          msg = "Edge source_id not found in nodes: " ++ e.source_id)
         ∨ (dictContains ns e.target_id = false ∧
          msg = "Edge target_id not found in nodes: " ++ e.target_id)) := by
  intro es
  induction es with
  | nil =>
      rintro ⟨e, he, _⟩
      cases he
  | cons e rest ih =>
      intro hdangling
      by_cases hs : dictContains ns e.source_id = false
      · exact ⟨_, e, by simp [checkEdges, hs], List.mem_cons_self e rest,
          Or.inl ⟨hs, rfl⟩⟩
      · by_cases ht : dictContains ns e.target_id = false
        · exact ⟨_, e, by simp [checkEdges, hs, ht], List.mem_cons_self e rest,
            Or.inr ⟨ht, rfl⟩⟩
        · have hrest : ∃ e2 ∈ rest, dictContains ns e2.source_id = false ∨
              dictContains ns e2.target_id = false := by
            rcases hdangling with ⟨e2, he2, hbad⟩
            rcases List.mem_cons.mp he2 with he2 | he2
            · subst he2
              rcases hbad with hbad | hbad
              · exact absurd hbad hs
              · exact absurd hbad ht
            · exact ⟨e2, he2, hbad⟩
          obtain ⟨msg, e2, herr, hmem, hchar⟩ := ih hrest
          exact ⟨msg, e2, by simp [checkEdges, hs, ht, herr],
            List.mem_cons_of_mem e hmem, hchar⟩

/-- A successful decode passed through the validator. -/
theorem trace_from_json_ok_validated (j : Json) (g : TraceGraph)
    (h : trace_from_json j = Except.ok g) :
    checkEdges g.nodes g.edges = Except.ok () := by
  unfold trace_from_json at h
  obtain ⟨g0, hraw, hval⟩ := exceptBind_ok h
  unfold TraceGraph.validate_edge_references at hval
  rcases hc : checkEdges g0.nodes g0.edges with m | u
  · rw [hc] at hval
    exact absurd hval (by simp)
  · rw [hc] at hval
    injection hval with h2
    subst h2
    exact hc

/-- A successful decode restarts the private counter at its default 0. -/
theorem decodeTraceRaw_counter (j : Json) (g : TraceGraph)
    (h : decodeTraceRaw j = Except.ok g) : g._sequence_counter = 0 := by
  unfold decodeTraceRaw at h
  repeat obtain ⟨_, _, h⟩ := exceptBind_ok h
  injection h with h2
  rw [← h2]

/-- C2: decoding the encoding of any valid TraceGraph succeeds and restores
every schema field exactly, the derived duration_ms recomputed identically
(validity = the graph passes its own edge validator, as every graph built
through the API does). -/
theorem C2_roundtrip (T : TraceGraph)
    (h : checkEdges T.nodes T.edges = Except.ok ()) :
    ∃ T2, trace_from_json (trace_to_json T) = Except.ok T2
      ∧ T2.schema_version = T.schema_version ∧ T2.trace_id = T.trace_id
      ∧ T2.name = T.name ∧ T2.nodes = T.nodes ∧ T2.edges = T.edges
      ∧ T2.start_time = T.start_time ∧ T2.end_time = T.end_time
      ∧ T2.metadata = T.metadata ∧ T2.duration_ms = T.duration_ms := by
  refine ⟨{ T with _sequence_counter := 0 }, ?_, rfl, rfl, rfl, rfl, rfl, rfl, rfl, rfl, rfl⟩
  simp [trace_from_json, decodeTraceRaw_enc T, Bind.bind, Except.bind,
    TraceGraph.validate_edge_references, h]

/-- A trace with one minimal node (all optional fields unset), one full
node (error payload and both timestamps), one edge, and an already
advanced sequence counter. -/
def richNode1 : Node :=
  { id := "n1", sequence_number := 0, name := "pipeline", node_type := "custom",
    status := NodeStatus.completed, parent_id := none, depth := 0,
    start_time := none, end_time := none, input_data := [],
    output_data := [], annotations := [], metadata := [],
    error := none, error_type := none, error_traceback := none }

def richNode2 : Node :=
  { id := "n2", sequence_number := 1, name := "step", node_type := "llm_call",
    status := NodeStatus.failed, parent_id := some "n1", depth := 1,
    start_time := some 1000000, end_time := some 2500000,
    input_data := [("x", Json.int 1)], output_data := [("y", Json.num (1 / 2))],
    annotations := ["retried"], metadata := [("k", Json.bool true)],
    error := some "boom", error_type := some "RuntimeError",
    error_traceback := some "Traceback: boom" }

def richEdge : Edge :=
  { source_id := "n1", target_id := "n2", edge_type := EdgeType.data_flow,
    label := "x", metadata := [("w", Json.str "v")] }

def richG : TraceGraph :=
  { schema_version := "0.1.0", trace_id := "trace-1", name := "demo",
    nodes := [("n1", richNode1), ("n2", richNode2)], edges := [richEdge],
    start_time := some 1000000, end_time := some 3000000,
    metadata := [("m", Json.int 5)], _sequence_counter := 2 }

/-- Witness for C2 on the concrete trace richG. -/
theorem C2_roundtrip_witness :
    ∃ T2, trace_from_json (trace_to_json richG) = Except.ok T2
      ∧ T2.schema_version = richG.schema_version ∧ T2.trace_id = richG.trace_id
      ∧ T2.name = richG.name ∧ T2.nodes = richG.nodes ∧ T2.edges = richG.edges
      ∧ T2.start_time = richG.start_time ∧ T2.end_time = richG.end_time
      ∧ T2.metadata = richG.metadata ∧ T2.duration_ms = richG.duration_ms :=
  C2_roundtrip richG rfl

/-- C3: a TraceGraph is never produced with a dangling edge: any successful
load (deserialization, or any construction running the model validator)
contains only edges whose endpoints exist, and a graph holding an edge with
a missing endpoint fails validation with an error naming the missing id. -/
theorem C3_load_validation :
    (∀ j g, trace_from_json j = Except.ok g →
      ∀ e ∈ g.edges, dictContains g.nodes e.source_id = true ∧
        dictContains g.nodes e.target_id = true)
    ∧ (∀ g : TraceGraph,
        (∃ e ∈ g.edges, dictContains g.nodes e.source_id = false ∨
          dictContains g.nodes e.target_id = false) →
        ∃ msg e, g.validate_edge_references = Except.error msg ∧ e ∈ g.edges ∧
          ((dictContains g.nodes e.source_id = false ∧
            msg = "Edge source_id not found in nodes: " ++ e.source_id)
           ∨ (dictContains g.nodes e.target_id = false ∧
            msg = "Edge target_id not found in nodes: " ++ e.target_id))) := by
  constructor
  · intro j g h
    exact checkEdges_ok_sound g.nodes g.edges (trace_from_json_ok_validated j g h)
  · intro g hdangling
    obtain ⟨msg, e, herr, hmem, hchar⟩ :=
      checkEdges_error_complete g.nodes g.edges hdangling
    exact ⟨msg, e, by simp [TraceGraph.validate_edge_references, herr],
      hmem, hchar⟩

/-- A graph holding a dangling edge, assembled directly from parts. -/
def gBad : TraceGraph := { sampleG with edges := [danglingEdge] }

/-- Witness for C3: the decoded richG has only resolvable edges, and gBad
fails validation with the missing id named. -/
theorem C3_load_validation_witness :
    (dictContains ({ richG with _sequence_counter := 0 } : TraceGraph).nodes
        richEdge.source_id = true
     ∧ dictContains ({ richG with _sequence_counter := 0 } : TraceGraph).nodes
        richEdge.target_id = true)
    ∧ ∃ msg e, gBad.validate_edge_references = Except.error msg ∧ e ∈ gBad.edges ∧
        ((dictContains gBad.nodes e.source_id = false ∧
          msg = "Edge source_id not found in nodes: " ++ e.source_id)
         ∨ (dictContains gBad.nodes e.target_id = false ∧
          msg = "Edge target_id not found in nodes: " ++ e.target_id)) :=
  ⟨C3_load_validation.1 (trace_to_json richG) { richG with _sequence_counter := 0 }
      (by simp [trace_from_json, decodeTraceRaw_enc richG, Bind.bind, Except.bind,
        TraceGraph.validate_edge_references, show checkEdges richG.nodes richG.edges
          = Except.ok () from rfl])
      richEdge (List.Mem.head _),
   C3_load_validation.2 gBad ⟨danglingEdge, List.Mem.head _, Or.inl rfl⟩⟩

/-- C9: the sequence counter is private, non-serialized state: every
successfully decoded TraceGraph restarts it at 0, so the first allocation
after a load returns 0 and can repeat a sequence number already carried by
a node of the decoded graph. -/
theorem C9_counter_not_serialized (j : Json) (g : TraceGraph)
    (h : trace_from_json j = Except.ok g) :
    g._sequence_counter = 0 ∧ (g.next_sequence_number).1 = 0
    ∧ ∀ k n, dictGet g.nodes k = some n → n.sequence_number = 0 →
        (g.next_sequence_number).1 = n.sequence_number := by
  unfold trace_from_json at h
  obtain ⟨g0, hraw, hval⟩ := exceptBind_ok h
  have hg0 : g = g0 := by
    unfold TraceGraph.validate_edge_references at hval
    rcases hc : checkEdges g0.nodes g0.edges with m | u
    · rw [hc] at hval
      exact absurd hval (by simp)
    · rw [hc] at hval
      injection hval with h2
      exact h2.symm
  subst hg0
  have hcounter := decodeTraceRaw_counter j g hraw
  refine ⟨hcounter, ?_, ?_⟩
  · simp [TraceGraph.next_sequence_number, hcounter]
  · intro k n _ hseq
    simp [TraceGraph.next_sequence_number, hcounter, hseq]

/-- Witness for C9 on richG: the trace had already allocated counter 2 and
node n1 carries sequence number 0; after decode(encode(richG)) the first
allocation returns 0 again, colliding with n1. -/
theorem C9_counter_not_serialized_witness :
    (({ richG with _sequence_counter := 0 } : TraceGraph).next_sequence_number).1 = 0
    ∧ (({ richG with _sequence_counter := 0 } : TraceGraph).next_sequence_number).1
        = richNode1.sequence_number :=
  ⟨(C9_counter_not_serialized (trace_to_json richG) _
      (by simp [trace_from_json, decodeTraceRaw_enc richG, Bind.bind, Except.bind,
        TraceGraph.validate_edge_references, show checkEdges richG.nodes richG.edges
          = Except.ok () from rfl])).2.1,
   (C9_counter_not_serialized (trace_to_json richG) _
      (by simp [trace_from_json, decodeTraceRaw_enc richG, Bind.bind, Except.bind,
        TraceGraph.validate_edge_references, show checkEdges richG.nodes richG.edges
          = Except.ok () from rfl])).2.2 "n1" richNode1 rfl rfl⟩

/-- C7: push then reset with the returned token restores the slot to
exactly the prior value, including None; nested push/reset pairs compose
reentrantly, for both the current-trace and the current-node slot. -/
theorem C7_context_round_trip (c : Ctx) (t t2 : TraceGraph) (n n2 : Option Node) :
    reset_current_trace (push_current_trace c t).2 (push_current_trace c t).1 = c
    ∧ get_current_trace
        (reset_current_trace (push_current_trace c t).2 (push_current_trace c t).1)
      = get_current_trace c
    ∧ reset_current_node (push_current_node c n).2 (push_current_node c n).1 = c
    ∧ get_current_node
        (reset_current_node (push_current_node c n).2 (push_current_node c n).1)
      = get_current_node c
    ∧ reset_current_trace
        (reset_current_trace
          (push_current_trace (push_current_trace c t).2 t2).2
          (push_current_trace (push_current_trace c t).2 t2).1)
        (push_current_trace c t).1 = c
    ∧ reset_current_node
        (reset_current_node
          (push_current_node (push_current_node c n).2 n2).2
          (push_current_node (push_current_node c n).2 n2).1)
        (push_current_node c n).1 = c
    ∧ reset_current_trace
        (reset_current_node
          (push_current_node (push_current_trace c t).2 n).2
          (push_current_node (push_current_trace c t).2 n).1)
        (push_current_trace c t).1 = c :=
  ⟨rfl, rfl, rfl, rfl, rfl, rfl, rfl⟩

theorem dictGet_dictSet_eq {α : Type} (m : List (String × α)) (k : String) (v : α) :
    dictGet (dictSet m k v) k = some v := by
  induction m with
  | nil => simp [dictSet, dictGet]
  | cons kv rest ih =>
      obtain ⟨k2, v2⟩ := kv
      by_cases h : k2 = k
      · simp [dictSet, dictGet, h]
      · simp [dictSet, dictGet, h, ih]

theorem dictGet_dictSet_ne {α : Type} (m : List (String × α)) (k k2 : String) (v : α)
    (h : k2 ≠ k) : dictGet (dictSet m k v) k2 = dictGet m k2 := by
  have hk : ¬ k = k2 := fun he => h he.symm
  induction m with
  | nil => simp [dictSet, dictGet, hk]
  | cons kv rest ih =>
      obtain ⟨k3, v3⟩ := kv
      by_cases h3 : k3 = k
      · subst h3
        simp [dictSet, dictGet, hk]
      · simp [dictSet, dictGet, h3, ih]

theorem dictContains_false_get {α : Type} (m : List (String × α)) (k : String)
    (h : dictContains m k = false) : dictGet m k = none := by
  induction m with
  | nil => rfl
  | cons kv rest ih =>
      obtain ⟨k2, v2⟩ := kv
      by_cases h2 : k2 = k
      · simp [dictContains, h2] at h
      · simp [dictContains, h2] at h
        simp [dictGet, h2, ih h]

theorem dictGet_some_contains {α : Type} (m : List (String × α)) (k : String) (v : α)
    (h : dictGet m k = some v) : dictContains m k = true := by
  induction m with
  | nil => simp [dictGet] at h
  | cons kv rest ih =>
      obtain ⟨k2, v2⟩ := kv
      by_cases h2 : k2 = k
      · simp [dictContains, h2]
      · simp [dictGet, h2] at h
        simp [dictContains, h2, ih h]

/-- The per-graph part of the reachability invariant: every stored node has
a non-negative depth, roots have depth 0, and a child is one deeper than
its stored parent. -/
def GraphInv (g : TraceGraph) : Prop :=
  ∀ k n, dictGet g.nodes k = some n →
    0 ≤ n.depth ∧
    (n.parent_id = none → n.depth = 0) ∧
    (∀ p, n.parent_id = some p →
      ∃ pn, dictGet g.nodes p = some pn ∧ n.depth = pn.depth + 1)

/-- The full reachability invariant: the graph part, every stacked context
node stored unchanged in the graph, and stacked ids distinct. -/
def StInv (st : RunState) : Prop :=
  GraphInv st.graph ∧
  (∀ n ∈ st.stack, dictGet st.graph.nodes n.id = some n) ∧
  (st.stack.map Node.id).Nodup

/-- Inserting a fresh node that satisfies the depth law keeps GraphInv. -/
theorem GraphInv_insert (g : TraceGraph) (inv : GraphInv g) (nd : Node)
    (fresh : dictContains g.nodes nd.id = false)
    (hdepth0 : nd.parent_id = none → nd.depth = 0)
    (hdepthP : ∀ p, nd.parent_id = some p →
      ∃ pn, dictGet g.nodes p = some pn ∧ nd.depth = pn.depth + 1)
    (hnonneg : 0 ≤ nd.depth) :
    GraphInv (g.add_node nd) := by
  intro k n hkn
  simp only [TraceGraph.add_node] at hkn
  by_cases hk : k = nd.id
  · subst hk
    rw [dictGet_dictSet_eq] at hkn
    injection hkn with hkn
    subst hkn
    refine ⟨hnonneg, hdepth0, fun p hp => ?_⟩
    obtain ⟨pn, hpn, hd⟩ := hdepthP p hp
    have hpne : p ≠ nd.id := by
      intro he
      rw [he, dictContains_false_get _ _ fresh] at hpn
      simp at hpn
    exact ⟨pn, by
      simp only [TraceGraph.add_node]
      rw [dictGet_dictSet_ne _ _ _ _ hpne]
      exact hpn, hd⟩
  · rw [dictGet_dictSet_ne _ _ _ _ hk] at hkn
    obtain ⟨h1, h2, h3⟩ := inv k n hkn
    refine ⟨h1, h2, fun p hp => ?_⟩
    obtain ⟨pn, hpn, hd⟩ := h3 p hp
    have hpne : p ≠ nd.id := by
      intro he
      rw [he, dictContains_false_get _ _ fresh] at hpn
      simp at hpn
    exact ⟨pn, by
      simp only [TraceGraph.add_node]
      rw [dictGet_dictSet_ne _ _ _ _ hpne]
      exact hpn, hd⟩

/-- Replacing a stored node by one with the same id, depth and parent keeps
GraphInv. -/
theorem GraphInv_update (g : TraceGraph) (inv : GraphInv g) (old nd : Node)
    (hold : dictGet g.nodes nd.id = some old)
    (hdepth : nd.depth = old.depth) (hpar : nd.parent_id = old.parent_id) :
    GraphInv (g.add_node nd) := by
  intro k n hkn
  simp only [TraceGraph.add_node] at hkn
  obtain ⟨o1, o2, o3⟩ := inv nd.id old hold
  by_cases hk : k = nd.id
  · subst hk
    rw [dictGet_dictSet_eq] at hkn
    injection hkn with hkn
    subst hkn
    refine ⟨hdepth ▸ o1, fun hp => by rw [hdepth]; exact o2 (hpar ▸ hp), fun p hp => ?_⟩
    obtain ⟨pn, hpn, hd⟩ := o3 p (hpar ▸ hp)
    by_cases hpe : p = nd.id
    · subst hpe
      rw [hold] at hpn
      injection hpn with hpn
      subst hpn
      exfalso
      omega
    · exact ⟨pn, by
        simp only [TraceGraph.add_node]
        rw [dictGet_dictSet_ne _ _ _ _ hpe]
        exact hpn, by rw [hdepth]; exact hd⟩
  · rw [dictGet_dictSet_ne _ _ _ _ hk] at hkn
    obtain ⟨h1, h2, h3⟩ := inv k n hkn
    refine ⟨h1, h2, fun p hp => ?_⟩
    obtain ⟨pn, hpn, hd⟩ := h3 p hp
    by_cases hpe : p = nd.id
    · subst hpe
      rw [hold] at hpn
      injection hpn with hpn
      subst hpn
      refine ⟨nd, ?_, ?_⟩
      · simp only [TraceGraph.add_node]
        rw [dictGet_dictSet_eq]
      · omega
    · exact ⟨pn, by
        simp only [TraceGraph.add_node]
        rw [dictGet_dictSet_ne _ _ _ _ hpe]
        exact hpn, hd⟩

/-- Opening a span with a fresh id preserves the invariant. -/
theorem StInv_open (st : RunState) (inv : StInv st) (id name node_type : String)
    (fresh : dictContains st.graph.nodes id = false) :
    StInv (spanOpen st id name node_type) := by
  obtain ⟨hg, hstack, hnodup⟩ := inv
  constructor
  · show GraphInv (TraceGraph.add_node _ _)
    refine GraphInv_insert _ (by exact hg) _ fresh ?_ ?_ ?_
    · intro hp
      cases hhd : st.stack.head? with
      | none => simp [hhd]
      | some pn => simp [hhd] at hp
    · intro p hp
      cases hhd : st.stack.head? with
      | none => simp [hhd] at hp
      | some pn =>
          simp only [hhd, Option.map_some] at hp
          injection hp with hp
          subst hp
          have hmem : pn ∈ st.stack := List.mem_of_mem_head? hhd
          exact ⟨pn, hstack pn hmem, by simp [hhd]⟩
    · cases hhd : st.stack.head? with
      | none => simp [hhd]
      | some pn =>
          have hmem : pn ∈ st.stack := List.mem_of_mem_head? hhd
          have := (hg pn.id pn (hstack pn hmem)).1
          simp [hhd]
          omega
  constructor
  · intro n hn
    rcases List.mem_cons.mp hn with hn | hn
    · subst hn
      show dictGet (dictSet _ _ _) _ = _
      exact dictGet_dictSet_eq _ _ _
    · have hold := hstack n hn
      have hne : n.id ≠ id := by
        intro he
        rw [he] at hold
        rw [dictContains_false_get _ _ fresh] at hold
        cases hold
      show dictGet (dictSet _ _ _) _ = _
      rw [dictGet_dictSet_ne _ _ _ _ hne]
      exact hold
  · show (List.map Node.id (_ :: st.stack)).Nodup
    rw [List.map_cons, List.nodup_cons]
    refine ⟨?_, hnodup⟩
    intro hmem
    obtain ⟨m, hm, hid⟩ := List.mem_map.mp hmem
    have hold := hstack m hm
    rw [hid] at hold
    rw [dictContains_false_get _ _ fresh] at hold
    cases hold

/-- Closing the innermost span preserves the invariant. -/
theorem StInv_close (st : RunState) (inv : StInv st) (endTime : Int)
    (final : NodeStatus) : StInv (spanClose st endTime final) := by
  obtain ⟨hg, hstack, hnodup⟩ := inv
  cases hst : st.stack with
  | nil =>
      rw [spanClose, hst]
      exact ⟨hg, hstack, hnodup⟩
  | cons n rest =>
      rw [spanClose, hst]
      have hmemn : n ∈ st.stack := by rw [hst]; exact List.mem_cons_self n rest
      have hold : dictGet st.graph.nodes n.id = some n := hstack n hmemn
      have hnd : (List.map Node.id (n :: rest)).Nodup := by rw [← hst]; exact hnodup
      rw [List.map_cons, List.nodup_cons] at hnd
      refine ⟨GraphInv_update _ hg n _ hold rfl rfl, ?_, hnd.2⟩
      intro m hm
      have hmne : m.id ≠ n.id := by
        intro he
        exact hnd.1 (he ▸ List.mem_map_of_mem Node.id hm)
      show dictGet (dictSet _ _ _) _ = _
      rw [dictGet_dictSet_ne _ _ _ _ hmne]
      exact hstack m (by rw [hst]; exact List.mem_cons_of_mem n hm)

theorem reach_StInv (st : RunState) (h : Reach st) : StInv st := by
  induction h with
  | start_trace tid =>
      refine ⟨?_, ?_, ?_⟩
      · intro k n hkn
        simp [dictGet] at hkn
      · intro n hn
        cases hn
      · simp
  | open_span st h id name node_type fresh ih => exact StInv_open st ih id name node_type fresh
  | close_span st h endTime final ih => exact StInv_close st ih endTime final

/-- C6: in every TraceGraph produced by the system operations (trace
creation and span open/close), a node has depth 0 exactly when it has no
parent, and otherwise its depth is one more than the depth of its parent,
which is present in the graph. -/
theorem C6_depth_invariant (st : RunState) (h : Reach st) : DepthInvIff st.graph := by
  obtain ⟨hg, -, -⟩ := reach_StInv st h
  intro k n hkn
  obtain ⟨h1, h2, h3⟩ := hg k n hkn
  refine ⟨⟨?_, h2⟩, h3⟩
  intro hd0
  rcases hp : n.parent_id with _ | p
  · rfl
  · obtain ⟨pn, hpn, hd⟩ := h3 p hp
    have := (hg p pn hpn).1
    omega

/-- A concrete reachable state: a root span and a child span opened. -/
def demoState : RunState :=
  spanOpen (spanOpen { graph := TraceGraph.new "t", stack := [] } "a" "root" "custom")
    "b" "child" "custom"

/-- Witness for C6 at the concrete reachable state demoState. -/
theorem C6_depth_invariant_witness : DepthInvIff demoState.graph :=
  C6_depth_invariant demoState
    (Reach.open_span _
      (Reach.open_span _ (Reach.start_trace "t") "a" "root" "custom" rfl)
      "b" "child" "custom" rfl)

/-- C5: two execution units running next_sequence_number unsynchronized on
one shared fresh TraceGraph can interleave their reads and writes so that
both calls return 0 (a collision) and the counter ends at 1; a serialized
schedule returns the distinct values 0 and 1. graph.py takes no lock, so
the colliding schedule is admissible. -/
theorem C5_unsynchronized_alloc_collision :
    (∃ sched : List Bool,
      (runSched (allocWorld0 "t") sched).t1.ret = some 0 ∧
      (runSched (allocWorld0 "t") sched).t2.ret = some 0 ∧
      (runSched (allocWorld0 "t") sched).graph._sequence_counter = 1)
    ∧ (runSched (allocWorld0 "t") [false, false, false, true, true, true]).t1.ret = some 0
    ∧ (runSched (allocWorld0 "t") [false, false, false, true, true, true]).t2.ret = some 1
    ∧ (runSched (allocWorld0 "t")
        [false, false, false, true, true, true]).graph._sequence_counter = 2 :=
  ⟨⟨[false, true, false, true, false, true], rfl, rfl, rfl⟩, rfl, rfl, rfl⟩

/-- C8: errors raised while recording span metadata never replace the
result of the instrumented operation: whatever the (unknown, possibly
raising) Span recording methods do, the patched request wrapper returns
exactly the outcome of the underlying request, response and exception
alike. That record_http_response itself never raises is encoded in its
total return type: the catch-all except turns a raised exception into a
warning flag. -/
theorem C8_recording_errors_contained {σ : Type} (ops ops2 : SpanOps σ)
    (enter exitf : σ → σ) (spanOpt : Option σ)
    (orig : Except String (Option Response)) (dur : Rat) :
    patched_request ops enter exitf spanOpt orig dur = orig
    ∧ patched_request ops enter exitf spanOpt orig dur
        = patched_request ops2 enter exitf spanOpt orig dur := by
  constructor
  · cases spanOpt with
    | none => rfl
    | some s => cases orig <;> rfl
  · cases spanOpt with
    | none => rfl
    | some s => cases orig <;> rfl

/-- The skip loop ignores invalid patterns: dropping them changes nothing. -/
theorem skipLoop_filter_isValid (u : String) (pats : List RePattern) :
    skipLoop u pats = skipLoop u (pats.filter RePattern.isValid) := by
  induction pats with
  | nil => rfl
  | cons p rest ih =>
      cases p with
      | invalid => simpa [skipLoop, List.filter, RePattern.isValid] using ih
      | valid t =>
          by_cases ht : t u
          · simp [skipLoop, List.filter, RePattern.isValid, ht]
          · simp [skipLoop, List.filter, RePattern.isValid, ht, ih]

/-- C10: create_http_span never propagates an exception from its
user-supplied configuration: a raising url_filter falls back to the
unfiltered URL, an invalid exclude pattern is treated as non-matching, and
span creation with a raising filter behaves exactly as with no filter,
returning a Span description or None (totality of the return type). -/
theorem C10_config_errors_contained (url : String)
    (f : String → Except String String) (e : String)
    (hf : f url = Except.error e) (pats : List RePattern)
    (trace : TraceGraph) (method : String) :
    _apply_url_filter url (some f) = url
    ∧ (∀ u2 pats2, _should_skip u2 (some pats2)
        = _should_skip u2 (some (pats2.filter RePattern.isValid)))
    ∧ create_http_span (some trace) method url (some f) (some pats)
        = create_http_span (some trace) method url none (some pats) := by
  have h1 : _apply_url_filter url (some f) = url := by
    simp [_apply_url_filter, hf]
  refine ⟨h1, ?_, ?_⟩
  · intro u2 pats2
    simp only [_should_skip]
    exact skipLoop_filter_isValid u2 pats2
  · have h2 : _apply_url_filter url none = url := rfl
    simp only [create_http_span, h1, h2]

/-- Witness for C10 with a filter that always raises and a pattern list
headed by an invalid regular expression. -/
theorem C10_config_errors_contained_witness :
    _apply_url_filter "https://x.test/a" (some fun _ => Except.error "boom")
      = "https://x.test/a"
    ∧ _should_skip "https://x.test/a" (some [RePattern.invalid])
        = _should_skip "https://x.test/a"
            (some ([RePattern.invalid].filter RePattern.isValid))
    ∧ create_http_span (some sampleG) "get" "https://x.test/a"
        (some fun _ => Except.error "boom") (some [RePattern.invalid])
      = create_http_span (some sampleG) "get" "https://x.test/a"
        none (some [RePattern.invalid]) := by
  have h := C10_config_errors_contained "https://x.test/a"
    (fun _ => Except.error "boom") "boom" rfl [RePattern.invalid] sampleG "get"
  exact ⟨h.1, h.2.1 "https://x.test/a" [RePattern.invalid], h.2.2⟩

end LogTracer
